import Mathlib

/-!
Verification of the rebasing-mint and rebasing-token extensions of
`token/program-2022` (files `extension/rebasing_mint/{mod,processor,instruction}.rs`
and `extension/rebasing_token/{mod,processor,instruction}.rs`).

The Rust code is shallowly embedded: `u64` arithmetic becomes `Nat` with explicit
checks against `U64_MAX`, fallible code returns `Except ProgramError`, and the
in-place account-buffer mutation of the transfer processor is made explicit by
returning the post-instruction account list together with the outcome.

Collaborator code that lives in the same repository but outside the provided
sources (the extension TLV pack/unpack facility, the crate-level amount/string
helpers, the base transfer processor) is modelled from the specification; each
such definition carries a doc comment starting with `Modelled from the spec:`.
-/

deriving instance DecidableEq for Except

/-- A 32-byte public identifier. Byte-for-byte equality of identifiers is list
equality of the byte lists. -/
structure Pubkey where
  bytes : List Nat
deriving DecidableEq, Repr

/-- The all-zero public key, used by `OptionalNonZeroPubkey` to encode "absent". -/
def ZERO_PUBKEY : Pubkey := ⟨List.replicate 32 0⟩

/-- Embedding of `spl_pod::optional_keys::OptionalNonZeroPubkey`: a pubkey slot
where the all-zero value means "none". -/
structure OptionalNonZeroPubkey where
  key : Pubkey
deriving DecidableEq, Repr

/-- The `Option::from` conversion of `OptionalNonZeroPubkey`: the all-zero value
decodes to `none`, anything else to `some` of the stored key. -/
def OptionalNonZeroPubkey.toOption (p : OptionalNonZeroPubkey) : Option Pubkey :=
  if p.key = ZERO_PUBKEY then none else some p.key

/-- Token-specific error codes used by the rebasing extensions
(`crate::error::TokenError`). -/
inductive TokenError where
  | Overflow
  | InvalidMint
  | RebaseAccountMismatch
  | InsufficientFunds
  | AlreadyInitialized
deriving DecidableEq, Repr

/-- Embedding of `solana_program::program_error::ProgramError`, restricted to the
variants the embedded code can produce. A `TokenError` converts into the
`Custom` variant. -/
inductive ProgramError where
  | InvalidArgument
  | InvalidAccountData
  | IncorrectProgramId
  | NotEnoughAccountKeys
  | BorshIoError
  | Custom (e : TokenError)
deriving DecidableEq, Repr

/-- Largest value representable in an unsigned 64-bit machine word. -/
def U64_MAX : Nat := 2 ^ 64 - 1

/-- Embedding of `u64::checked_mul`: `none` when the product would not fit in
64 bits, so a wrapped value is never produced. -/
def checked_mul (a b : Nat) : Option Nat :=
  if a * b ≤ U64_MAX then some (a * b) else none

/-- Embedding of `u64::checked_div`: `none` on a zero divisor, otherwise the
floor of the quotient. -/
def checked_div (a b : Nat) : Option Nat :=
  if b = 0 then none else some (a / b)

/-- Embedding of `u64::checked_sub`: `none` when the subtraction would wrap
below zero. -/
def checked_sub (a b : Nat) : Option Nat :=
  if b ≤ a then some (a - b) else none

/-- Decimal digit rendered as its ASCII character. -/
def natDigitChar (d : Nat) : Char := Char.ofNat (48 + d)

/-- Little-endian decimal digits of `n`, computed with structural fuel so the
definition reduces in the kernel; `natDigitsLE 0 = []`. -/
def natDigitsLEAux : Nat → Nat → List Nat
  | _, 0 => []
  | 0, _ + 1 => []
  | fuel + 1, n + 1 => (n + 1) % 10 :: natDigitsLEAux fuel ((n + 1) / 10)

/-- Little-endian decimal digits of `n` (empty for zero). -/
def natDigitsLE (n : Nat) : List Nat := natDigitsLEAux n n

/-- Decimal rendering of a natural number, the model of Rust's
`u64::to_string` / `format!` on unsigned integers. -/
def natToDecString (n : Nat) : String :=
  if n = 0 then "0" else ⟨(natDigitsLE n).reverse.map natDigitChar⟩

/-- ASCII decimal digit back to its value; `none` for non-digit characters. -/
def charDigit (c : Char) : Option Nat :=
  if 48 ≤ c.toNat ∧ c.toNat ≤ 57 then some (c.toNat - 48) else none

/-- Value of a little-endian list of digit characters; `none` when any
character is not a decimal digit. -/
def parseDigitsLE : List Char → Option Nat
  | [] => some 0
  | c :: cs =>
    match charDigit c, parseDigitsLE cs with
    | some d, some r => some (d + 10 * r)
    | _, _ => none

/-- Rust's `u64::from_str` accepts one optional leading plus sign. -/
def stripLeadingPlus (cs : List Char) : List Char :=
  match cs with
  | [] => []
  | c :: rest => if c = '+' then rest else c :: rest

/-- Embedding of Rust's `str::parse::<u64>()`: an optional leading plus sign
followed by at least one decimal digit, rejecting values above `U64_MAX`. -/
def parseU64String (s : String) : Option Nat :=
  if stripLeadingPlus s.toList = [] then none
  else
    match parseDigitsLE (stripLeadingPlus s.toList).reverse with
    | some n => if n ≤ U64_MAX then some n else none
    | none => none

theorem natDigitsLEAux_eq_digits (fuel n : Nat) (h : n ≤ fuel) :
    natDigitsLEAux fuel n = Nat.digits 10 n := by
  induction fuel generalizing n with
  | zero =>
    interval_cases n
    simp [natDigitsLEAux]
  | succ fuel ih =>
    cases n with
    | zero => simp [natDigitsLEAux]
    | succ m =>
      have hdiv : (m + 1) / 10 ≤ fuel := by
        have : (m + 1) / 10 < m + 1 := Nat.div_lt_self (Nat.succ_pos m) (by norm_num)
        omega
      rw [natDigitsLEAux, ih _ hdiv]
      exact (Nat.digits_def' (by norm_num : 1 < 10) (Nat.succ_pos m)).symm

theorem natDigitsLE_eq_digits (n : Nat) : natDigitsLE n = Nat.digits 10 n :=
  natDigitsLEAux_eq_digits n n (Nat.le_refl n)

theorem charDigit_natDigitChar : ∀ d, d < 10 → charDigit (natDigitChar d) = some d := by
  decide

theorem natDigitChar_ne_plus : ∀ d, d < 10 → natDigitChar d ≠ '+' := by
  decide

theorem parseDigitsLE_map (ds : List Nat) (h : ∀ d ∈ ds, d < 10) :
    parseDigitsLE (ds.map natDigitChar) = some (Nat.ofDigits 10 ds) := by
  induction ds with
  | nil => simp [parseDigitsLE, Nat.ofDigits]
  | cons d ds ih =>
    have hd : d < 10 := h d (List.mem_cons_self d ds)
    have hds : ∀ x ∈ ds, x < 10 := fun x hx => h x (List.mem_cons_of_mem d hx)
    simp only [List.map_cons, parseDigitsLE, charDigit_natDigitChar d hd, ih hds,
      Nat.ofDigits_cons]

theorem parseU64String_natToDecString (n : Nat) (h : n ≤ U64_MAX) :
    parseU64String (natToDecString n) = some n := by
  rcases Nat.eq_zero_or_pos n with h0 | h0
  · subst h0
    decide
  · have hne : n ≠ 0 := Nat.pos_iff_ne_zero.mp h0
    have hlt : ∀ d ∈ Nat.digits 10 n, d < 10 := fun d hd =>
      Nat.digits_lt_base (by norm_num) hd
    have hnil : Nat.digits 10 n ≠ [] := Nat.digits_ne_nil_iff_ne_zero.mpr hne
    have hstr : natToDecString n = ⟨(Nat.digits 10 n).reverse.map natDigitChar⟩ := by
      rw [natToDecString, if_neg hne, natDigitsLE_eq_digits]
    obtain ⟨c, rest, hcons⟩ :=
      List.exists_cons_of_ne_nil (l := (Nat.digits 10 n).reverse.map natDigitChar)
        (by simp [hnil])
    have hcmem : c ∈ (Nat.digits 10 n).reverse.map natDigitChar := by
      rw [hcons]; exact List.mem_cons_self c rest
    obtain ⟨d, hdmem, hdc⟩ := List.mem_map.mp hcmem
    have hcne : c ≠ '+' := by
      rw [← hdc]
      exact natDigitChar_ne_plus d (hlt d (List.mem_reverse.mp hdmem))
    have hstrip : stripLeadingPlus ((Nat.digits 10 n).reverse.map natDigitChar)
        = (Nat.digits 10 n).reverse.map natDigitChar := by
      rw [hcons, stripLeadingPlus, if_neg hcne]
    have hrev : ((Nat.digits 10 n).reverse.map natDigitChar).reverse
        = (Nat.digits 10 n).map natDigitChar := by
      rw [← List.map_reverse, List.reverse_reverse]
    have hA : stripLeadingPlus
        (String.toList ⟨(Nat.digits 10 n).reverse.map natDigitChar⟩)
        = (Nat.digits 10 n).reverse.map natDigitChar := hstrip
    have hlne : (Nat.digits 10 n).reverse.map natDigitChar ≠ [] := by simp [hnil]
    rw [hstr]
    simp only [parseU64String]
    rw [hA, if_neg hlne, hrev, parseDigitsLE_map (Nat.digits 10 n) hlt,
      Nat.ofDigits_digits]
    show (if n ≤ U64_MAX then some n else none) = some n
    rw [if_pos h]

/-- Embedding of `RebaseType` (rebasing_mint/mod.rs): the tag for the kind of
reference account the mint rescales against. -/
inductive RebaseType where
  | Staking
  | Mint
deriving DecidableEq, Repr

/-- Embedding of the `TryInto<RebaseType> for u8` impl: byte 1 decodes to
`Staking`, byte 2 to `Mint`, and any other byte is rejected with
`InvalidArgument`. -/
def tryIntoRebaseType (v : Nat) : Except ProgramError RebaseType :=
  if v = 1 then .ok .Staking
  else if v = 2 then .ok .Mint
  else .error .InvalidArgument

/-- Embedding of `RebasingMintConfig` (rebasing_mint/mod.rs): the optional
rescale authority and the `rescale_type` tag byte (1 = staking account,
2 = mint account). -/
structure RebasingMintConfig where
  rescale_authority : OptionalNonZeroPubkey
  rescale_type : Nat
deriving DecidableEq, Repr

/-- Embedding of `RebasingTokenMint` (rebasing_token/mod.rs). Besides the
declared `share_authority` field, the spec lists an implicit `supply` quantity
(the total outstanding shares, maintained by the surrounding token system);
the transfer processor reads it as `mint_extension.supply`. -/
structure RebasingTokenMint where
  share_authority : OptionalNonZeroPubkey
  supply : Nat
deriving DecidableEq, Repr

/-- Embedding of `RebasingTokenAccount` (rebasing_token/mod.rs): the account's
claim on the mint's share pool. -/
structure RebasingTokenAccount where
  shares : Nat
deriving DecidableEq, Repr

/-- The delegation record of a stake account; only the staked amount is read by
this core (`stake.delegation.stake`). -/
structure Delegation where
  stake : Nat
deriving DecidableEq, Repr

/-- The stake record carried by the `Stake` variant of a stake-state account. -/
structure StakeRecord where
  delegation : Delegation
deriving DecidableEq, Repr

/-- Embedding of `solana_program::stake::state::StakeStateV2`. Metadata payloads
not read by this core (meta, stake flags) are omitted from the variants. -/
inductive StakeStateV2 where
  | Uninitialized
  | Initialized
  | Stake (stake : StakeRecord)
  | RewardsPool
deriving DecidableEq, Repr

/-- Embedding of `get_stake` (rebasing_mint/mod.rs): only the actively delegated
`Stake` variant has a meaningful staked amount; every other variant is
`InvalidAccountData`. -/
def get_stake : StakeStateV2 → Except ProgramError Nat
  | .Uninitialized => .error .InvalidAccountData
  | .Initialized => .error .InvalidAccountData
  | .Stake stake => .ok stake.delegation.stake
  | .RewardsPool => .error .InvalidAccountData

/-- Model of a mint account's byte buffer as seen through the generic extension
pack/unpack facility (that facility is outside the provided sources; its record
shape follows the spec's data model): the base record's initialization flag and
total supply, and one TLV slot per rebasing extension variant. -/
structure MintAccountData where
  base_initialized : Bool
  supply : Nat
  rebasing_mint_ext : Option RebasingMintConfig
  rebasing_token_mint_ext : Option RebasingTokenMint
deriving DecidableEq, Repr

/-- Model of a token account's byte buffer: the base record's initialization
flag and the rebasing share-extension slot. -/
structure TokenAccountData where
  base_initialized : Bool
  rebasing_token_account_ext : Option RebasingTokenAccount
deriving DecidableEq, Repr

/-- Classification of an account's raw data by what it deserializes as: a borsh
stake-state record, a packable mint, a packable token account, or none of
these. -/
inductive AccountData where
  | stakeData (s : StakeStateV2)
  | mintData (m : MintAccountData)
  | tokenAccountData (a : TokenAccountData)
  | otherData
deriving DecidableEq, Repr

/-- Embedding of `solana_program::account_info::AccountInfo`: the account's
address, its owning program, and its data buffer. -/
structure AccountInfo where
  key : Pubkey
  owner : Pubkey
  data : AccountData
deriving DecidableEq, Repr

/-- The program id of the embedded token program; `check_program_account`
compares owners against it. Modelled as a fixed non-zero identifier. -/
def spl_token_2022_id : Pubkey := ⟨List.replicate 31 0 ++ [6]⟩

/-- Embedding of `check_program_account`: the supplied id must be the token
program's own id. -/
def check_program_account (id : Pubkey) : Except ProgramError Unit :=
  if id = spl_token_2022_id then .ok () else .error .IncorrectProgramId

/-- Embedding of `RebasingMintConfig::check_rebase_account`: the candidate
account's key must equal the stored rescale authority
(`Some(*rebase_info.key) == Option::from(self.rescale_authority)`); on mismatch
the distinct `TokenError::RebaseAccountMismatch` is returned. -/
def RebasingMintConfig.check_rebase_account (self : RebasingMintConfig)
    (rebase_info : AccountInfo) : Except ProgramError Unit :=
  if some rebase_info.key = self.rescale_authority.toOption then .ok ()
  else .error (.Custom .RebaseAccountMismatch)

/-- Modelled from the spec: `crate::amount_to_ui_amount_string_trimmed` (crate
root, outside the provided sources). The amount is rendered as a decimal string
with `decimals` fractional digits, and trailing zeros plus a dangling decimal
point are trimmed. -/
def amount_to_ui_amount_string_trimmed (amount decimals : Nat) : String :=
  if decimals = 0 then natToDecString amount
  else
    let intPart := natToDecString (amount / 10 ^ decimals)
    let fracDigits :=
      List.replicate (decimals - (natDigitsLE (amount % 10 ^ decimals)).length) '0' ++
        (natDigitsLE (amount % 10 ^ decimals)).reverse.map natDigitChar
    let fracTrimmed := (fracDigits.reverse.dropWhile (fun c => c = '0')).reverse
    if fracTrimmed.isEmpty then intPart
    else intPart ++ "." ++ ⟨fracTrimmed⟩

/-- Embedding of `RebasingMintConfig::_try_amount_to_ui_amount`: checked multiply
by the rebase supply then checked divide by the total supply, each failure
reported as `TokenError::Overflow`, then the trimmed string rendering of the
scaled amount. -/
def RebasingMintConfig._try_amount_to_ui_amount (_self : RebasingMintConfig)
    (amount decimals total_supply rebase_supply : Nat) : Except ProgramError String :=
  match checked_mul amount rebase_supply with
  | none => .error (.Custom .Overflow)
  | some p =>
    match checked_div p total_supply with
    | none => .error (.Custom .Overflow)
    | some scaled_amount => .ok (amount_to_ui_amount_string_trimmed scaled_amount decimals)

/-- Modelled from the spec: the crate-level `try_ui_amount_into_amount` called at
the end of `_try_ui_amount_into_amount` is outside the provided sources. The
spec describes it as "the canonical amount-string round-trip validator (which
re-renders with `decimals` and must parse back to the same integer)": the
string is parsed as an unsigned integer and the parse result must re-render to
the original string, otherwise the conversion is rejected. -/
def crate_try_ui_amount_into_amount (s : String) (_decimals : Nat) :
    Except ProgramError Nat :=
  match parseU64String s with
  | some n => if natToDecString n = s then .ok n else .error .InvalidArgument
  | none => .error .InvalidArgument

/-- Embedding of `RebasingMintConfig::_try_ui_amount_into_amount`: checked
multiply by the total supply then checked divide by the rebase supply, each
failure reported as `TokenError::Overflow`, then the canonical round-trip
validation of the result rendered with `to_string`. -/
def RebasingMintConfig._try_ui_amount_into_amount (_self : RebasingMintConfig)
    (ui_amount decimals total_supply rebase_supply : Nat) : Except ProgramError Nat :=
  match checked_mul ui_amount total_supply with
  | none => .error (.Custom .Overflow)
  | some p =>
    match checked_div p rebase_supply with
    | none => .error (.Custom .Overflow)
    | some amount => crate_try_ui_amount_into_amount (natToDecString amount) decimals

/-- Embedding of `RebasingMintConfig::try_amount_to_ui_amount` (the account-level
wrapper): decode `rescale_type`, resolve the reference quantity from the rebase
account (delegated stake via `get_stake`, or a valid mint's supply, with unpack
failure mapped to `TokenError::InvalidMint`), then the checked scaling. -/
def RebasingMintConfig.try_amount_to_ui_amount (self : RebasingMintConfig)
    (amount decimals total_supply : Nat) (rebase_info : AccountInfo) :
    Except ProgramError String :=
  match tryIntoRebaseType self.rescale_type with
  | .error e => .error e
  | .ok .Staking =>
    match rebase_info.data with
    | .stakeData stake_state =>
      match get_stake stake_state with
      | .error e => .error e
      | .ok rescale => self._try_amount_to_ui_amount amount decimals total_supply rescale
    | _ => .error .BorshIoError
  | .ok .Mint =>
    match rebase_info.data with
    | .mintData m =>
      if m.base_initialized
      then self._try_amount_to_ui_amount amount decimals total_supply m.supply
      else .error (.Custom .InvalidMint)
    | _ => .error (.Custom .InvalidMint)

/-- The reference-validation match block of `process_initialize`
(rebasing_mint/processor.rs lines 42-52): for `Staking` the reference data must
borsh-deserialize as a `StakeStateV2` (the decoded value is bound to
`_stake_state` and otherwise unused, so any variant passes); for `Mint` it must
unpack as a valid initialized mint, with failure mapped to
`TokenError::InvalidMint`. -/
def validate_reference : RebaseType → AccountData → Except ProgramError Unit
  | .Staking, .stakeData _ => .ok ()
  | .Staking, _ => .error .BorshIoError
  | .Mint, .mintData m =>
    if m.base_initialized then .ok () else .error (.Custom .InvalidMint)
  | .Mint, _ => .error (.Custom .InvalidMint)

/-- Embedding of `process_initialize` (rebasing_mint/processor.rs). Steps, in
source order: decode the `rebase_type` byte; take the mint and reference
accounts; require the supplied `rebase_pubkey` to match the reference account's
key (`RebaseAccountMismatch` otherwise); validate the reference account's data
shape; check the mint's owner; unpack the mint as an uninitialized base record
and initialize the `RebasingMintConfig` TLV slot (both modelled from the spec:
the pack/unpack facility is outside the provided sources — `unpack_uninitialized`
requires the base record to be uninitialized and the spec's init-if-absent
contract makes initialization of a populated slot fail with `AlreadyInitialized`,
the fresh slot holding the zeroed default record). The processor then assigns
`rescale_authority`; it never writes `rescale_type`, which therefore keeps the
default value 0. Returns the new mint data; every error path precedes the
single mutation. -/
def process_initialize (accounts : List AccountInfo)
    (rebase_pubkey : OptionalNonZeroPubkey) (rebase_type : Nat) :
    Except ProgramError MintAccountData :=
  match tryIntoRebaseType rebase_type with
  | .error e => .error e
  | .ok rebase_type_ =>
    match accounts with
    | mint_info :: rebase_info :: _ =>
      if some rebase_info.key = rebase_pubkey.toOption then
        match validate_reference rebase_type_ rebase_info.data with
        | .error e => .error e
        | .ok _ =>
          match check_program_account mint_info.owner with
          | .error e => .error e
          | .ok _ =>
            match mint_info.data with
            | .mintData md =>
              if md.base_initialized then .error .InvalidAccountData
              else
                match md.rebasing_mint_ext with
                | some _ => .error (.Custom .AlreadyInitialized)
                | none =>
                  .ok { md with rebasing_mint_ext := some ⟨rebase_pubkey, 0⟩ }
            | _ => .error .InvalidAccountData
      else .error (.Custom .RebaseAccountMismatch)
    | _ => .error .NotEnoughAccountKeys

/-- The `COption<Pubkey> -> OptionalNonZeroPubkey` conversion used by
`process_initialize_mint` (`share_authority.try_into()?`): `None` becomes the
all-zero encoding and an explicit all-zero key is rejected. -/
def coptionTryIntoOptionalNonZero : Option Pubkey →
    Except ProgramError OptionalNonZeroPubkey
  | none => .ok ⟨ZERO_PUBKEY⟩
  | some k => if k = ZERO_PUBKEY then .error .InvalidArgument else .ok ⟨k⟩

/-- Embedding of `process_initialize_mint` (rebasing_token/processor.rs): check
the mint's owner, unpack the mint as an uninitialized base record, initialize
the `RebasingTokenMint` TLV slot (pack/unpack facility modelled from the spec as
for `process_initialize`, the fresh slot zeroed), then convert and assign the
share authority. -/
def process_initialize_mint (accounts : List AccountInfo)
    (share_authority : Option Pubkey) : Except ProgramError MintAccountData :=
  match accounts with
  | mint_info :: _ =>
    match check_program_account mint_info.owner with
    | .error e => .error e
    | .ok _ =>
      match mint_info.data with
      | .mintData md =>
        if md.base_initialized then .error .InvalidAccountData
        else
          match md.rebasing_token_mint_ext with
          | some _ => .error (.Custom .AlreadyInitialized)
          | none =>
            match coptionTryIntoOptionalNonZero share_authority with
            | .error e => .error e
            | .ok sa =>
              .ok { md with rebasing_token_mint_ext := some ⟨sa, 0⟩ }
      | _ => .error .InvalidAccountData
  | _ => .error .NotEnoughAccountKeys

/-- Embedding of `process_transfer_checked` (rebasing_token/processor.rs). The
account buffers are mutated in place by the Rust code, so the embedding returns
the post-instruction account list together with the outcome; mutations performed
before an error are kept. The `ok` payload is the underlying `transfer_amount`
handed to the external base-transfer collaborator
(`Processor::process_transfer`, out of scope). Source order: unpack the mint
and read `supply`; get the mint's `RebasingTokenMint` extension; unpack the
source account and get its `RebasingTokenAccount` extension; fail with
`InsufficientFunds` when `shares < share_amount`; debit the shares by checked
subtraction; then compute `share_amount * token_supply / share_supply` with
checked multiply and divide, each failure reported as `TokenError::Overflow`. -/
def process_transfer_checked (_program_id : Pubkey) (accounts : List AccountInfo)
    (share_amount : Nat) (_decimals : Option Nat) :
    List AccountInfo × Except ProgramError Nat :=
  match accounts with
  | source_account_info :: mint_account_info :: rest =>
    match mint_account_info.data with
    | .mintData md =>
      if md.base_initialized then
        match md.rebasing_token_mint_ext with
        | some mint_extension =>
          match source_account_info.data with
          | .tokenAccountData ta =>
            if ta.base_initialized then
              match ta.rebasing_token_account_ext with
              | some token_acc_extension =>
                if token_acc_extension.shares < share_amount then
                  (accounts, .error (.Custom .InsufficientFunds))
                else
                  match checked_sub token_acc_extension.shares share_amount with
                  | none => (accounts, .error (.Custom .Overflow))
                  | some new_shares =>
                    match checked_mul share_amount md.supply with
                    | none =>
                      ({ source_account_info with
                          data := .tokenAccountData
                            { ta with rebasing_token_account_ext := some ⟨new_shares⟩ } }
                          :: mint_account_info :: rest,
                        .error (.Custom .Overflow))
                    | some p =>
                      match checked_div p mint_extension.supply with
                      | none =>
                        ({ source_account_info with
                            data := .tokenAccountData
                              { ta with rebasing_token_account_ext := some ⟨new_shares⟩ } }
                            :: mint_account_info :: rest,
                          .error (.Custom .Overflow))
                      | some transfer_amount =>
                        ({ source_account_info with
                            data := .tokenAccountData
                              { ta with rebasing_token_account_ext := some ⟨new_shares⟩ } }
                            :: mint_account_info :: rest,
                          .ok transfer_amount)
              | none => (accounts, .error .InvalidAccountData)
            else (accounts, .error .InvalidAccountData)
          | _ => (accounts, .error .InvalidAccountData)
        | none => (accounts, .error .InvalidAccountData)
      else (accounts, .error .InvalidAccountData)
    | _ => (accounts, .error .InvalidAccountData)
  | _ => (accounts, .error .NotEnoughAccountKeys)

/-- The share-based transfer algorithm in the order the specification states it:
all validation — including the checked computation of the underlying amount —
before any mutation, the debit of the source shares coming last. Written from
the spec's words, to be compared with `process_transfer_checked` as embedded
from the source. -/
def process_transfer_checked_spec_order (_program_id : Pubkey)
    (accounts : List AccountInfo) (share_amount : Nat) (_decimals : Option Nat) :
    List AccountInfo × Except ProgramError Nat :=
  match accounts with
  | source_account_info :: mint_account_info :: rest =>
    match mint_account_info.data with
    | .mintData md =>
      if md.base_initialized then
        match md.rebasing_token_mint_ext with
        | some mint_extension =>
          match source_account_info.data with
          | .tokenAccountData ta =>
            if ta.base_initialized then
              match ta.rebasing_token_account_ext with
              | some token_acc_extension =>
                if token_acc_extension.shares < share_amount then
                  (accounts, .error (.Custom .InsufficientFunds))
                else
                  match checked_mul share_amount md.supply with
                  | none => (accounts, .error (.Custom .Overflow))
                  | some p =>
                    match checked_div p mint_extension.supply with
                    | none => (accounts, .error (.Custom .Overflow))
                    | some transfer_amount =>
                      match checked_sub token_acc_extension.shares share_amount with
                      | none => (accounts, .error (.Custom .Overflow))
                      | some new_shares =>
                        ({ source_account_info with
                            data := .tokenAccountData
                              { ta with rebasing_token_account_ext := some ⟨new_shares⟩ } }
                            :: mint_account_info :: rest,
                          .ok transfer_amount)
              | none => (accounts, .error .InvalidAccountData)
            else (accounts, .error .InvalidAccountData)
          | _ => (accounts, .error .InvalidAccountData)
        | none => (accounts, .error .InvalidAccountData)
      else (accounts, .error .InvalidAccountData)
    | _ => (accounts, .error .InvalidAccountData)
  | _ => (accounts, .error .NotEnoughAccountKeys)

/-- A non-zero identifier used as the reference account's address in the
concrete fixtures. -/
def REF_KEY : Pubkey := ⟨List.replicate 31 0 ++ [2]⟩

/-- A non-zero identifier used as the mint account's address in the concrete
fixtures. -/
def MINT_KEY : Pubkey := ⟨List.replicate 31 0 ++ [3]⟩

/-- A non-zero identifier used as the source token account's address in the
concrete fixtures. -/
def SOURCE_KEY : Pubkey := ⟨List.replicate 31 0 ++ [4]⟩

/-- Fixture: a token-program-owned mint account whose base record and extension
slots are all uninitialized. -/
def uninitMintAccount : AccountInfo :=
  ⟨MINT_KEY, spl_token_2022_id, .mintData ⟨false, 0, none, none⟩⟩

/-- Fixture: a reference account whose data deserializes as the `Uninitialized`
stake-state variant (so `get_stake` rejects it). -/
def uninitStakeRefAccount : AccountInfo :=
  ⟨REF_KEY, ZERO_PUBKEY, .stakeData .Uninitialized⟩

/-- C1: the claim fails on the code and the spec is the intent — the processor
validates the supplied `rescale_type` byte but never writes it to the extension
slot (only `rescale_authority` is assigned after `init_extension`), so a
successful Initialize leaves `rescale_type = 0`, which does not decode to any
`RebaseType`; the code violates the documented invariant that a stored
`rescale_type` always decodes. Evaluated at a concrete successful input with
supplied tag byte 1. -/
theorem C1_initialize_drops_the_tag_byte :
    process_initialize [uninitMintAccount, uninitStakeRefAccount] ⟨REF_KEY⟩ 1
      = .ok ⟨false, 0, some ⟨⟨REF_KEY⟩, 0⟩, none⟩
    ∧ tryIntoRebaseType 1 = .ok .Staking
    ∧ tryIntoRebaseType 0 = .error .InvalidArgument := by
  refine ⟨by decide, rfl, rfl⟩

/-- C9: `check_rebase_account` succeeds exactly when the candidate account's
identifier equals the stored rescale authority byte for byte, the all-zero
"no reference set" encoding matching no candidate account key other than
through the explicit absent-identifier decoding; every mismatch yields the
distinct `RebaseAccountMismatch` error. -/
theorem C9_check_rebase_account_exact_match
    (self : RebasingMintConfig) (info : AccountInfo) :
    (self.check_rebase_account info = .ok () ↔
      self.rescale_authority.key.bytes ≠ ZERO_PUBKEY.bytes
        ∧ info.key.bytes = self.rescale_authority.key.bytes)
    ∧ (self.check_rebase_account info ≠ .ok () →
      self.check_rebase_account info = .error (.Custom .RebaseAccountMismatch)) := by
  have hbytes : ∀ p q : Pubkey, p = q ↔ p.bytes = q.bytes := by
    intro p q
    cases p
    cases q
    simp
  unfold RebasingMintConfig.check_rebase_account OptionalNonZeroPubkey.toOption
  by_cases hz : self.rescale_authority.key = ZERO_PUBKEY
  · rw [if_pos hz, if_neg (by simp : ¬(some info.key = (none : Option Pubkey)))]
    constructor
    · constructor
      · intro hok
        simp at hok
      · rintro ⟨hne, _⟩
        exact absurd ((hbytes _ _).mp hz) hne
    · intro _
      rfl
  · rw [if_neg hz]
    by_cases hk : info.key = self.rescale_authority.key
    · rw [if_pos (by rw [hk])]
      constructor
      · constructor
        · intro _
          exact ⟨fun hb => hz ((hbytes _ _).mpr hb), (hbytes _ _).mp hk⟩
        · intro _
          rfl
      · intro hne
        exact absurd rfl hne
    · rw [if_neg (fun hsome => hk (Option.some.inj hsome))]
      constructor
      · constructor
        · intro hok
          simp at hok
        · rintro ⟨_, hb⟩
          exact absurd ((hbytes _ _).mpr hb) hk
      · intro _
        rfl

/-- C9 witness: a concrete mismatch (stored authority absent, candidate key
non-zero) produces exactly `RebaseAccountMismatch`. -/
theorem C9_check_rebase_account_witness :
    (RebasingMintConfig.mk ⟨ZERO_PUBKEY⟩ 1).check_rebase_account uninitStakeRefAccount
      = .error (.Custom .RebaseAccountMismatch) :=
  (C9_check_rebase_account_exact_match ⟨⟨ZERO_PUBKEY⟩, 1⟩ uninitStakeRefAccount).2
    (by decide)

/-- C8: a zero denominator in either conversion direction (zero `total_supply`
for amount-to-display, zero `rebase_supply` for display-to-amount) always yields
the arithmetic `TokenError::Overflow` error — the embedding is a total function,
so no panic is possible — and a 64-bit overflow of the checked multiply in
either direction is likewise always reported as `TokenError::Overflow`, never
wrapped or saturated. -/
theorem C8_zero_denominator_and_overflow_reported :
    (∀ (self : RebasingMintConfig) (a d R : Nat),
      self._try_amount_to_ui_amount a d 0 R = .error (.Custom .Overflow))
    ∧ (∀ (self : RebasingMintConfig) (u d T : Nat),
      self._try_ui_amount_into_amount u d T 0 = .error (.Custom .Overflow))
    ∧ (∀ (self : RebasingMintConfig) (a d T R : Nat), U64_MAX < a * R →
      self._try_amount_to_ui_amount a d T R = .error (.Custom .Overflow))
    ∧ (∀ (self : RebasingMintConfig) (u d T R : Nat), U64_MAX < u * T →
      self._try_ui_amount_into_amount u d T R = .error (.Custom .Overflow)) := by
  refine ⟨fun self a d R => ?_, fun self u d T => ?_,
    fun self a d T R h => ?_, fun self u d T R h => ?_⟩
  · by_cases hm : a * R ≤ U64_MAX
    · simp [RebasingMintConfig._try_amount_to_ui_amount, checked_mul, checked_div, hm]
    · simp [RebasingMintConfig._try_amount_to_ui_amount, checked_mul, hm]
  · by_cases hm : u * T ≤ U64_MAX
    · simp [RebasingMintConfig._try_ui_amount_into_amount, checked_mul, checked_div, hm]
    · simp [RebasingMintConfig._try_ui_amount_into_amount, checked_mul, hm]
  · have hm : ¬ a * R ≤ U64_MAX := Nat.not_le.mpr h
    simp [RebasingMintConfig._try_amount_to_ui_amount, checked_mul, hm]
  · have hm : ¬ u * T ≤ U64_MAX := Nat.not_le.mpr h
    simp [RebasingMintConfig._try_ui_amount_into_amount, checked_mul, hm]

/-- C8 witness: a concrete overflowing multiply in the amount-to-display
direction is reported as `TokenError::Overflow`. -/
theorem C8_overflow_witness :
    (RebasingMintConfig.mk ⟨ZERO_PUBKEY⟩ 2)._try_amount_to_ui_amount
      (2 ^ 64) 0 3 1 = .error (.Custom .Overflow) :=
  C8_zero_denominator_and_overflow_reported.2.2.1 ⟨⟨ZERO_PUBKEY⟩, 2⟩ (2 ^ 64) 0 3 1
    (by decide)

/-- C6: for every amount, decimals and positive total supply with the product
`amount * rebase_supply` representable in 64 bits, the amount-to-display
conversion returns exactly the floor quotient
`amount * rebase_supply / total_supply` rendered by the trimmed decimal
formatter; in particular the two concrete vectors from the source's test
`specific_amount_to_ui_amount` evaluate to `"5000"` and `"4219871"`. -/
theorem C6_amount_to_scaled_display :
    (∀ (self : RebasingMintConfig) (amount decimals total_supply rebase_supply : Nat),
      0 < total_supply → amount * rebase_supply ≤ U64_MAX →
      self._try_amount_to_ui_amount amount decimals total_supply rebase_supply
        = .ok (amount_to_ui_amount_string_trimmed
            (amount * rebase_supply / total_supply) decimals))
    ∧ (RebasingMintConfig.mk ⟨ZERO_PUBKEY⟩ 2)._try_amount_to_ui_amount
        10000 0 1000000 500000 = .ok "5000"
    ∧ (RebasingMintConfig.mk ⟨ZERO_PUBKEY⟩ 2)._try_amount_to_ui_amount
        20489552 0 6829850799 1406623726 = .ok "4219871" := by
  refine ⟨fun self amount decimals total_supply rebase_supply hT hm => ?_,
    by decide, by decide⟩
  have h0 : total_supply ≠ 0 := Nat.pos_iff_ne_zero.mp hT
  simp [RebasingMintConfig._try_amount_to_ui_amount, checked_mul, checked_div, hm, h0]

/-- C6 witness: the universal part applied at a concrete input (3 scaled by
5 over a total supply of 2, one fractional digit). -/
theorem C6_amount_to_scaled_display_witness :
    (RebasingMintConfig.mk ⟨ZERO_PUBKEY⟩ 2)._try_amount_to_ui_amount 3 1 2 5
      = .ok (amount_to_ui_amount_string_trimmed (3 * 5 / 2) 1) :=
  C6_amount_to_scaled_display.1 ⟨⟨ZERO_PUBKEY⟩, 2⟩ 3 1 2 5 (by decide) (by decide)

theorem amount_string_trimmed_zero_decimals (amount : Nat) :
    amount_to_ui_amount_string_trimmed amount 0 = natToDecString amount := by
  simp [amount_to_ui_amount_string_trimmed]

theorem lt_div_succ_mul (a b : Nat) (hb : 0 < b) : a < (a / b + 1) * b := by
  have h1 := Nat.div_add_mod a b
  have h2 : a % b < b := Nat.mod_lt a hb
  have h3 : (a / b + 1) * b = b * (a / b) + b := by ring
  omega

theorem double_div_round_trip (a T R : Nat) (hT : 0 < T) (hR : 0 < R) :
    a * R / T * T / R ≤ a ∧ a ≤ a * R / T * T / R + T / R + 1 := by
  constructor
  · have h1 : a * R / T * T ≤ a * R := Nat.div_mul_le_self (a * R) T
    have h2 : a * R / T * T / R ≤ a * R / R := Nat.div_le_div_right h1
    have h3 : a * R / R = a := Nat.mul_div_cancel a hR
    omega
  · by_contra hcon
    push_neg at hcon
    have h1 : a * R < (a * R / T + 1) * T := lt_div_succ_mul _ _ hT
    have h2 : a * R / T * T < (a * R / T * T / R + 1) * R := lt_div_succ_mul _ _ hR
    have h3 : T < (T / R + 1) * R := lt_div_succ_mul _ _ hR
    have h4 : (a * R / T * T / R + T / R + 2) * R ≤ a * R :=
      Nat.mul_le_mul_right R (by omega)
    have e1 : (a * R / T + 1) * T = a * R / T * T + T := by ring
    have e2 : (a * R / T * T / R + 1) * R = a * R / T * T / R * R + R := by ring
    have e3 : (T / R + 1) * R = T / R * R + R := by ring
    have e4 : (a * R / T * T / R + T / R + 2) * R
        = a * R / T * T / R * R + T / R * R + 2 * R := by ring
    omega

/-- C7: counterexample to the round-trip bound as claimed for all decimals.
With decimals = 2, T = 199, R = 100, the amount 995 displays as "5" (the two
zero fractional digits of the scaled value 500 are trimmed), and converting
"5" back yields 9: the loss is 986, far above the cumulative floor-truncation
loss of the two integer divisions (at most T / R + 1 = 2 raw units, shown here
even doubled), because the display dropped the 10 ^ decimals scale factor. -/
theorem C7_counterexample_nonzero_decimals :
    (RebasingMintConfig.mk ⟨ZERO_PUBKEY⟩ 2)._try_amount_to_ui_amount 995 2 199 100
      = .ok "5"
    ∧ parseU64String "5" = some 5
    ∧ (RebasingMintConfig.mk ⟨ZERO_PUBKEY⟩ 2)._try_ui_amount_into_amount 5 2 199 100
      = .ok 9
    ∧ ¬(995 - 9 ≤ 2 * (199 / 100 + 1)) :=
  ⟨by decide, by decide, by decide, by decide⟩

/-- C7 (amended): with decimals = 0 (so that the display string carries the full
scaled integer and parses back), the round trip through amount-to-display and
display-to-amount differs from the original amount by at most the cumulative
floor-truncation loss of the two integer divisions, bounded by T / R + 1 raw
units, the result never exceeding the original; the concrete 20489552 →
"4219871" → 20489551 chain loses exactly one unit within that bound. -/
theorem C7_round_trip_bound :
    (∀ (self self2 : RebasingMintConfig) (a T R u b : Nat) (s : String),
      0 < T → 0 < R →
      self._try_amount_to_ui_amount a 0 T R = .ok s →
      parseU64String s = some u →
      self2._try_ui_amount_into_amount u 0 T R = .ok b →
      b ≤ a ∧ a ≤ b + T / R + 1)
    ∧ (RebasingMintConfig.mk ⟨ZERO_PUBKEY⟩ 2)._try_amount_to_ui_amount
        20489552 0 6829850799 1406623726 = .ok "4219871"
    ∧ parseU64String "4219871" = some 4219871
    ∧ (RebasingMintConfig.mk ⟨ZERO_PUBKEY⟩ 2)._try_ui_amount_into_amount
        4219871 0 6829850799 1406623726 = .ok 20489551
    ∧ 20489552 - 20489551 ≤ 6829850799 / 1406623726 + 1 := by
  refine ⟨?_, by decide, by decide, by decide, by decide⟩
  intro self self2 a T R u b s hT hR h1 h2 h3
  have hT0 : T ≠ 0 := Nat.pos_iff_ne_zero.mp hT
  have hR0 : R ≠ 0 := Nat.pos_iff_ne_zero.mp hR
  by_cases hm : a * R ≤ U64_MAX
  · simp only [RebasingMintConfig._try_amount_to_ui_amount, checked_mul, checked_div,
      if_pos hm, if_neg hT0, amount_string_trimmed_zero_decimals,
      Except.ok.injEq] at h1
    have hle : a * R / T ≤ U64_MAX := le_trans (Nat.div_le_self (a * R) T) hm
    rw [← h1, parseU64String_natToDecString (a * R / T) hle] at h2
    have hu : u = a * R / T := (Option.some.inj h2).symm
    by_cases hm2 : u * T ≤ U64_MAX
    · have hle2 : u * T / R ≤ U64_MAX := le_trans (Nat.div_le_self (u * T) R) hm2
      simp only [RebasingMintConfig._try_ui_amount_into_amount, checked_mul, checked_div,
        if_pos hm2, if_neg hR0, crate_try_ui_amount_into_amount,
        parseU64String_natToDecString (u * T / R) hle2, eq_self_iff_true, if_true,
        Except.ok.injEq] at h3
      rw [← h3, hu]
      exact double_div_round_trip a T R hT hR
    · simp only [RebasingMintConfig._try_ui_amount_into_amount, checked_mul,
        if_neg hm2] at h3
      cases h3
  · simp only [RebasingMintConfig._try_amount_to_ui_amount, checked_mul,
      if_neg hm] at h1
    cases h1

/-- C7 witness: the amended bound instantiated on the concrete
20489552 → "4219871" → 20489551 chain. -/
theorem C7_round_trip_bound_witness :
    20489551 ≤ 20489552 ∧ 20489552 ≤ 20489551 + 6829850799 / 1406623726 + 1 :=
  C7_round_trip_bound.1 ⟨⟨ZERO_PUBKEY⟩, 2⟩ ⟨⟨ZERO_PUBKEY⟩, 2⟩ 20489552 6829850799
    1406623726 4219871 20489551 "4219871" (by decide) (by decide) (by decide)
    (by decide) (by decide)

/-- Fixture: a source token account holding 5 shares in its rebasing
extension. -/
def xferSourceAccount : AccountInfo :=
  ⟨SOURCE_KEY, spl_token_2022_id, .tokenAccountData ⟨true, some ⟨5⟩⟩⟩

/-- Fixture: an initialized mint with underlying supply `2 ^ 63` and share
supply 7, so that transferring 2 shares overflows the 64-bit multiply. -/
def xferOverflowMintAccount : AccountInfo :=
  ⟨MINT_KEY, spl_token_2022_id, .mintData ⟨true, 2 ^ 63, none, some ⟨⟨ZERO_PUBKEY⟩, 7⟩⟩⟩

/-- Fixture: an initialized mint with underlying supply 6 and share supply 7. -/
def xferSmallMintAccount : AccountInfo :=
  ⟨MINT_KEY, spl_token_2022_id, .mintData ⟨true, 6, none, some ⟨⟨ZERO_PUBKEY⟩, 7⟩⟩⟩

/-- The source account as it stands after the transfer processor debits its
rebasing share extension down to `new_shares`; abbreviates the record update
performed by `process_transfer_checked`. -/
def debitedSource (src : AccountInfo) (ta : TokenAccountData)
    (new_shares : Nat) : AccountInfo :=
  { src with
      data := .tokenAccountData
        { ta with rebasing_token_account_ext := some ⟨new_shares⟩ } }

/-- C2: counterexample to the claimed step order. At a concrete input whose
underlying-amount multiply overflows (2 shares, underlying supply `2 ^ 63`),
the source-embedded processor and the processor performing the spec's exact
order (compute before debit) leave different post-states: the source code
debits the shares before the checked multiply, the spec order does not. -/
theorem C2_counterexample_debit_precedes_computation :
    (process_transfer_checked spl_token_2022_id
        [xferSourceAccount, xferOverflowMintAccount] 2 none).1
      ≠ (process_transfer_checked_spec_order spl_token_2022_id
        [xferSourceAccount, xferOverflowMintAccount] 2 none).1 := by
  decide

/-- C2 (amended): the transfer processor performs the claimed steps with one
correction — the debit happens before the underlying-amount computation, not
after. With well-formed accounts: insufficient shares fail with
`InsufficientFunds` and leave the accounts unchanged; with sufficient shares
the processor debits the source by the requested amount and, when the checked
multiply and divide succeed, hands exactly
`floor(share_amount * underlying_supply / share_supply)` to the base-transfer
collaborator; when the multiply overflows 64 bits it reports
`TokenError::Overflow` with the debit already applied. -/
theorem C2_transfer_share_scaling
    (pid : Pubkey) (src mint : AccountInfo) (rest : List AccountInfo)
    (ta : TokenAccountData) (acc_ext : RebasingTokenAccount)
    (md : MintAccountData) (mint_ext : RebasingTokenMint) (amt : Nat)
    (dec : Option Nat)
    (hsrc : src.data = .tokenAccountData ta) (hta : ta.base_initialized = true)
    (hext : ta.rebasing_token_account_ext = some acc_ext)
    (hmint : mint.data = .mintData md) (hmd : md.base_initialized = true)
    (hmext : md.rebasing_token_mint_ext = some mint_ext) :
    (acc_ext.shares < amt →
      process_transfer_checked pid (src :: mint :: rest) amt dec
        = (src :: mint :: rest, .error (.Custom .InsufficientFunds)))
    ∧ (amt ≤ acc_ext.shares → amt * md.supply ≤ U64_MAX → mint_ext.supply ≠ 0 →
      process_transfer_checked pid (src :: mint :: rest) amt dec
        = (debitedSource src ta (acc_ext.shares - amt) :: mint :: rest,
          .ok (amt * md.supply / mint_ext.supply)))
    ∧ (amt ≤ acc_ext.shares → U64_MAX < amt * md.supply →
      process_transfer_checked pid (src :: mint :: rest) amt dec
        = (debitedSource src ta (acc_ext.shares - amt) :: mint :: rest,
          .error (.Custom .Overflow))) := by
  refine ⟨fun hlt => ?_, fun hge hmul hss => ?_, fun hge hmul => ?_⟩
  · simp [process_transfer_checked, hsrc, hta, hext, hmint, hmd, hmext, hlt]
  · have hnlt : ¬ acc_ext.shares < amt := Nat.not_lt.mpr hge
    simp [process_transfer_checked, debitedSource, hsrc, hta, hext, hmint, hmd, hmext,
      hnlt, checked_sub, hge, checked_mul, hmul, checked_div, hss]
  · have hnlt : ¬ acc_ext.shares < amt := Nat.not_lt.mpr hge
    have hnle : ¬ amt * md.supply ≤ U64_MAX := Nat.not_le.mpr hmul
    simp [process_transfer_checked, debitedSource, hsrc, hta, hext, hmint, hmd, hmext,
      hnlt, checked_sub, hge, checked_mul, hnle]

/-- C2 witness: the amended success case on concrete accounts — 2 of 5 shares
transferred against underlying supply 6 and share supply 7 debits the source to
3 shares and invokes the collaborator with floor(2 * 6 / 7) = 1. -/
theorem C2_transfer_share_scaling_witness :
    process_transfer_checked spl_token_2022_id
        [xferSourceAccount, xferSmallMintAccount] 2 none
      = ([⟨SOURCE_KEY, spl_token_2022_id, .tokenAccountData ⟨true, some ⟨3⟩⟩⟩,
          xferSmallMintAccount], .ok 1) := by
  exact (C2_transfer_share_scaling spl_token_2022_id xferSourceAccount
    xferSmallMintAccount [] ⟨true, some ⟨5⟩⟩ ⟨5⟩ ⟨true, 6, none, some ⟨⟨ZERO_PUBKEY⟩, 7⟩⟩
    ⟨⟨ZERO_PUBKEY⟩, 7⟩ 2 none rfl rfl rfl rfl rfl rfl).2.1 (by decide) (by decide)
    (by decide)

theorem transfer_post_state (pid : Pubkey) (accounts : List AccountInfo)
    (amt : Nat) (dec : Option Nat) :
    (process_transfer_checked pid accounts amt dec).1 = accounts
    ∨ (process_transfer_checked pid accounts amt dec).2 = .error (.Custom .Overflow)
    ∨ ∃ v, (process_transfer_checked pid accounts amt dec).2 = .ok v := by
  unfold process_transfer_checked
  repeat' split
  all_goals simp

/-- C3: counterexample — on the concrete overflow input the processor returns
the arithmetic `Overflow` error, yet the source account's shares have already
been debited from 5 to 3: an error return does not imply unmutated state. -/
theorem C3_counterexample_mutation_on_error :
    (process_transfer_checked spl_token_2022_id
        [xferSourceAccount, xferOverflowMintAccount] 2 none).2
      = .error (.Custom .Overflow)
    ∧ (process_transfer_checked spl_token_2022_id
        [xferSourceAccount, xferOverflowMintAccount] 2 none).1
      ≠ [xferSourceAccount, xferOverflowMintAccount] := by
  exact ⟨by decide, by decide⟩

/-- C3 (amended): every error of the transfer processor other than the
arithmetic `Overflow` of the underlying-amount computation is raised before
any mutation, leaving the account list unchanged — in particular the
insufficient-shares error; only the overflow error can return with the source
already debited, the surrounding runtime's transaction rollback being relied
on for atomicity there. -/
theorem C3_errors_before_debit_leave_state
    (pid : Pubkey) (accounts : List AccountInfo) (amt : Nat) (dec : Option Nat)
    (e : ProgramError)
    (herr : (process_transfer_checked pid accounts amt dec).2 = .error e)
    (hov : e ≠ .Custom .Overflow) :
    (process_transfer_checked pid accounts amt dec).1 = accounts := by
  rcases transfer_post_state pid accounts amt dec with h | h | ⟨v, h⟩
  · exact h
  · rw [herr] at h
    exact absurd (Except.error.inj h) hov
  · rw [herr] at h
    cases h

/-- C3 witness: the amended statement on a concrete insufficient-shares input
(5 shares, 9 requested): the error leaves the accounts exactly as passed. -/
theorem C3_errors_before_debit_leave_state_witness :
    (process_transfer_checked spl_token_2022_id
        [xferSourceAccount, xferSmallMintAccount] 9 none).1
      = [xferSourceAccount, xferSmallMintAccount] :=
  C3_errors_before_debit_leave_state spl_token_2022_id
    [xferSourceAccount, xferSmallMintAccount] 9 none
    (.Custom .InsufficientFunds) (by decide) (by decide)

theorem check_program_account_ok (id : Pubkey) (u : Unit)
    (h : check_program_account id = .ok u) : id = spl_token_2022_id := by
  by_cases hid : id = spl_token_2022_id
  · exact hid
  · simp [check_program_account, hid] at h

theorem validate_reference_staking_ok (d : AccountData)
    (h : validate_reference .Staking d = .ok ()) : ∃ st, d = .stakeData st := by
  cases d with
  | stakeData s => exact ⟨s, rfl⟩
  | mintData m => simp [validate_reference] at h
  | tokenAccountData a => simp [validate_reference] at h
  | otherData => simp [validate_reference] at h

theorem validate_reference_mint_ok (d : AccountData)
    (h : validate_reference .Mint d = .ok ()) :
    ∃ m, d = .mintData m ∧ m.base_initialized = true := by
  cases d with
  | stakeData s => simp [validate_reference] at h
  | mintData m =>
    refine ⟨m, rfl, ?_⟩
    by_cases hb : m.base_initialized = true
    · exact hb
    · simp [validate_reference, hb] at h
  | tokenAccountData a => simp [validate_reference] at h
  | otherData => simp [validate_reference] at h

theorem process_initialize_ok_cases (accounts : List AccountInfo)
    (pk : OptionalNonZeroPubkey) (ty : Nat) (md' : MintAccountData)
    (h : process_initialize accounts pk ty = .ok md') :
    ∃ mint_info rebase_info rest md rty,
      accounts = mint_info :: rebase_info :: rest
      ∧ tryIntoRebaseType ty = .ok rty
      ∧ some rebase_info.key = pk.toOption
      ∧ validate_reference rty rebase_info.data = .ok ()
      ∧ mint_info.owner = spl_token_2022_id
      ∧ mint_info.data = .mintData md
      ∧ md.base_initialized = false
      ∧ md.rebasing_mint_ext = none
      ∧ md' = { md with rebasing_mint_ext := some ⟨pk, 0⟩ } := by
  unfold process_initialize at h
  repeat' split at h
  all_goals first
  | (simp at h; done)
  | (rename_i x4 rty hty accounts0 mint_info rebase_info tail hkey x3 u1 href x2 u2
       hcpa x1 md hdata hbase x0 hext
     cases u1
     exact ⟨mint_info, rebase_info, tail, md, rty, rfl, hty, hkey, href,
       check_program_account_ok _ _ hcpa, hdata, Bool.eq_false_iff.mpr hbase, hext,
       (Except.ok.inj h).symm⟩)

theorem process_initialize_mint_ok_cases (accounts : List AccountInfo)
    (sa : Option Pubkey) (md' : MintAccountData)
    (h : process_initialize_mint accounts sa = .ok md') :
    ∃ mint_info rest md sa2,
      accounts = mint_info :: rest
      ∧ mint_info.owner = spl_token_2022_id
      ∧ mint_info.data = .mintData md
      ∧ md.base_initialized = false
      ∧ md.rebasing_token_mint_ext = none
      ∧ coptionTryIntoOptionalNonZero sa = .ok sa2
      ∧ md' = { md with rebasing_token_mint_ext := some ⟨sa2, 0⟩ } := by
  unfold process_initialize_mint at h
  repeat' split at h
  all_goals first
  | (simp at h; done)
  | (rename_i accounts0 mint_info tail x3 u hcpa x2 md hdata hbase x1 hext x0 sa2 hsa
     exact ⟨mint_info, tail, md, sa2, rfl, check_program_account_ok _ _ hcpa,
       hdata, Bool.eq_false_iff.mpr hbase, hext, hsa, (Except.ok.inj h).symm⟩)

/-- Fixture: a token-program-owned mint whose base record is uninitialized but
whose rebasing extension slots are both populated. -/
def populatedMintAccount : AccountInfo :=
  ⟨MINT_KEY, spl_token_2022_id,
    .mintData ⟨false, 0, some ⟨⟨REF_KEY⟩, 0⟩, some ⟨⟨ZERO_PUBKEY⟩, 0⟩⟩⟩

/-- Fixture: a token-program-owned mint whose base record is already
initialized, extension slots empty. -/
def initializedBaseMintAccount : AccountInfo :=
  ⟨MINT_KEY, spl_token_2022_id, .mintData ⟨true, 0, none, none⟩⟩

/-- Fixture: a reference account whose data parses neither as a stake state nor
as a mint. -/
def otherRefAccount : AccountInfo := ⟨REF_KEY, ZERO_PUBKEY, .otherData⟩

/-- C4: for a mint whose rebasing extension slot is already populated, neither
Initialize variant can succeed — under the spec's init-if-absent contract for
the extension facility the populated slot is never overwritten — and when every
other precondition holds the failure is exactly `AlreadyInitialized`, raised
before any write, so the existing configuration is untouched. -/
theorem C4_populated_slot_never_overwritten
    (mint_info rebase_info : AccountInfo) (rest rest2 : List AccountInfo)
    (pk : OptionalNonZeroPubkey) (ty : Nat) (sa : Option Pubkey)
    (md : MintAccountData) (c : RebasingMintConfig) (m : RebasingTokenMint)
    (hmd : mint_info.data = .mintData md) :
    (md.rebasing_mint_ext = some c →
      ∀ md', process_initialize (mint_info :: rebase_info :: rest) pk ty ≠ .ok md')
    ∧ (md.rebasing_token_mint_ext = some m →
      ∀ md', process_initialize_mint (mint_info :: rest2) sa ≠ .ok md')
    ∧ (md.rebasing_mint_ext = some c → md.base_initialized = false →
      mint_info.owner = spl_token_2022_id → some rebase_info.key = pk.toOption →
      ∀ rty, tryIntoRebaseType ty = .ok rty →
        validate_reference rty rebase_info.data = .ok () →
        process_initialize (mint_info :: rebase_info :: rest) pk ty
          = .error (.Custom .AlreadyInitialized))
    ∧ (md.rebasing_token_mint_ext = some m → md.base_initialized = false →
      mint_info.owner = spl_token_2022_id →
      process_initialize_mint (mint_info :: rest2) sa
        = .error (.Custom .AlreadyInitialized)) := by
  refine ⟨fun hext md' hok => ?_, fun hext md' hok => ?_,
    fun hext hbase howner hkey rty hty href => ?_, fun hext hbase howner => ?_⟩
  · obtain ⟨mi, ri, rest', md2, rty, haccs, _, _, _, _, hdata2, _, hnone, _⟩ :=
      process_initialize_ok_cases _ _ _ _ hok
    injection haccs with h1 hrest
    subst h1
    rw [hmd] at hdata2
    cases AccountData.mintData.inj hdata2
    rw [hext] at hnone
    cases hnone
  · obtain ⟨mi, rest', md2, sa2, haccs, _, hdata2, _, hnone, _, _⟩ :=
      process_initialize_mint_ok_cases _ _ _ hok
    injection haccs with h1 hrest
    subst h1
    rw [hmd] at hdata2
    cases AccountData.mintData.inj hdata2
    rw [hext] at hnone
    cases hnone
  · simp [ process_initialize, check_program_account, hty, hkey, href, howner, hmd,
      hbase, hext]
  · simp [process_initialize_mint, check_program_account, howner, hmd, hbase, hext]

/-- C4 witness: the exact `AlreadyInitialized` failure on a concrete mint with
an uninitialized base record and a populated rebasing-mint extension slot. -/
theorem C4_populated_slot_witness :
    process_initialize [populatedMintAccount, uninitStakeRefAccount] ⟨REF_KEY⟩ 1
      = .error (.Custom .AlreadyInitialized) :=
  (C4_populated_slot_never_overwritten populatedMintAccount uninitStakeRefAccount
    [] [] ⟨REF_KEY⟩ 1 none ⟨false, 0, some ⟨⟨REF_KEY⟩, 0⟩, some ⟨⟨ZERO_PUBKEY⟩, 0⟩⟩
    ⟨⟨REF_KEY⟩, 0⟩ ⟨⟨ZERO_PUBKEY⟩, 0⟩ rfl).2.2.1 rfl rfl rfl (by decide)
    .Staking rfl rfl

/-- C5: counterexample — with `rescale_type = Staking` and a reference account
whose data is the `Uninitialized` stake-state variant (which `get_stake`
rejects as not a delegated stake record), `process_initialize` nevertheless
succeeds: initialization checks only that the data borsh-deserializes as a
`StakeStateV2`, not that it is the active `Stake` variant. -/
theorem C5_counterexample_undelegated_reference :
    ( process_initialize [uninitMintAccount, uninitStakeRefAccount] ⟨REF_KEY⟩ 1).isOk
      = true
    ∧ get_stake .Uninitialized = .error .InvalidAccountData := by
  exact ⟨by decide, rfl⟩

/-- C5 (amended): initialization eagerly validates the reference account's
serialization shape — success with `rescale_type = Staking` requires the data
to parse as some stake-state record (any variant; the delegated-variant check
via `get_stake` is applied only by the conversion paths at use time), success
with `rescale_type = Mint` requires a valid initialized mint, non-mint or
uninitialized-mint references failing with `InvalidMint` and non-stake
references failing with the borsh deserialization error. -/
theorem C5_reference_shape_validation
    (mint_info rebase_info : AccountInfo) (rest : List AccountInfo)
    (pk : OptionalNonZeroPubkey) :
    (∀ md', process_initialize (mint_info :: rebase_info :: rest) pk 1 = .ok md' →
      ∃ st, rebase_info.data = .stakeData st)
    ∧ (∀ md', process_initialize (mint_info :: rebase_info :: rest) pk 2 = .ok md' →
      ∃ m, rebase_info.data = .mintData m ∧ m.base_initialized = true)
    ∧ (some rebase_info.key = pk.toOption →
      (∀ m, rebase_info.data = .mintData m → m.base_initialized = false) →
      process_initialize (mint_info :: rebase_info :: rest) pk 2
        = .error (.Custom .InvalidMint))
    ∧ (some rebase_info.key = pk.toOption →
      (∀ st, rebase_info.data ≠ .stakeData st) →
      process_initialize (mint_info :: rebase_info :: rest) pk 1
        = .error .BorshIoError)
    ∧ (∀ (self : RebasingMintConfig) (amount decimals total_supply : Nat)
        (info : AccountInfo), self.rescale_type = 1 →
      info.data = .stakeData .Uninitialized →
      self.try_amount_to_ui_amount amount decimals total_supply info
        = .error .InvalidAccountData) := by
  refine ⟨fun md' hok => ?_, fun md' hok => ?_, fun hkey hshape => ?_,
    fun hkey hnostake => ?_, fun self amount decimals total_supply info hself hd => ?_⟩
  · obtain ⟨mi, ri, rest', md2, rty, haccs, hty, hkey, href, _, _, _, _, _⟩ :=
      process_initialize_ok_cases _ _ _ _ hok
    injection haccs with h1 hrest
    injection hrest with h2 hrest2
    subst h2
    have hrty : rty = .Staking :=
      (Except.ok.inj (show Except.ok RebaseType.Staking = .ok rty from hty)).symm
    subst hrty
    exact validate_reference_staking_ok _ href
  · obtain ⟨mi, ri, rest', md2, rty, haccs, hty, hkey, href, _, _, _, _, _⟩ :=
      process_initialize_ok_cases _ _ _ _ hok
    injection haccs with h1 hrest
    injection hrest with h2 hrest2
    subst h2
    have hrty : rty = .Mint :=
      (Except.ok.inj (show Except.ok RebaseType.Mint = .ok rty from hty)).symm
    subst hrty
    exact validate_reference_mint_ok _ href
  · cases hd : rebase_info.data with
    | mintData m =>
      have hb := hshape m hd
      simp [ process_initialize, tryIntoRebaseType, hkey, validate_reference, hd, hb]
    | stakeData s =>
      simp [ process_initialize, tryIntoRebaseType, hkey, validate_reference, hd]
    | tokenAccountData a =>
      simp [ process_initialize, tryIntoRebaseType, hkey, validate_reference, hd]
    | otherData =>
      simp [ process_initialize, tryIntoRebaseType, hkey, validate_reference, hd]
  · cases hd : rebase_info.data with
    | stakeData s => exact absurd hd (hnostake s)
    | mintData m =>
      simp [ process_initialize, tryIntoRebaseType, hkey, validate_reference, hd]
    | tokenAccountData a =>
      simp [ process_initialize, tryIntoRebaseType, hkey, validate_reference, hd]
    | otherData =>
      simp [ process_initialize, tryIntoRebaseType, hkey, validate_reference, hd]
  · simp [RebasingMintConfig.try_amount_to_ui_amount, tryIntoRebaseType, hself, hd,
      get_stake]

/-- C5 witness: the amended `InvalidMint` case on a concrete reference account
whose data is neither a stake state nor a mint. -/
theorem C5_reference_shape_witness :
    process_initialize [uninitMintAccount, otherRefAccount] ⟨REF_KEY⟩ 2
      = .error (.Custom .InvalidMint) :=
  (C5_reference_shape_validation uninitMintAccount otherRefAccount []
    ⟨REF_KEY⟩).2.2.1 (by decide) (fun m hm => AccountData.noConfusion hm)

/-- C10: once the base mint record is initialized, both Initialize variants are
unpacked through `unpack_uninitialized` (modelled from the spec as succeeding
only on an uninitialized base record), so both fail for every extension-slot
state, every supplied authority and every tag byte. -/
theorem C10_initialized_base_rejects_both
    (mint_info : AccountInfo) (rest rest2 : List AccountInfo)
    (pk : OptionalNonZeroPubkey) (ty : Nat) (sa : Option Pubkey)
    (md : MintAccountData) (hmd : mint_info.data = .mintData md)
    (hbase : md.base_initialized = true) :
    (∀ md', process_initialize (mint_info :: rest) pk ty ≠ .ok md')
    ∧ (∀ md', process_initialize_mint (mint_info :: rest2) sa ≠ .ok md') := by
  constructor
  · intro md' hok
    obtain ⟨mi, ri, rest', md2, rty, haccs, _, _, _, _, hdata2, hb2, _, _⟩ :=
      process_initialize_ok_cases _ _ _ _ hok
    injection haccs with h1 hrest
    subst h1
    rw [hmd] at hdata2
    cases AccountData.mintData.inj hdata2
    rw [hbase] at hb2
    cases hb2
  · intro md' hok
    obtain ⟨mi, rest', md2, sa2, haccs, _, hdata2, hb2, _, _, _⟩ :=
      process_initialize_mint_ok_cases _ _ _ hok
    injection haccs with h1 hrest
    subst h1
    rw [hmd] at hdata2
    cases AccountData.mintData.inj hdata2
    rw [hbase] at hb2
    cases hb2

/-- C10 witness: a concrete base-initialized mint rejects the rebasing-mint
Initialize even with an otherwise valid reference. -/
theorem C10_initialized_base_witness :
    process_initialize [initializedBaseMintAccount, uninitStakeRefAccount]
        ⟨REF_KEY⟩ 1
      ≠ .ok ⟨true, 0, some ⟨⟨REF_KEY⟩, 0⟩, none⟩ :=
  (C10_initialized_base_rejects_both initializedBaseMintAccount
    [uninitStakeRefAccount] [] ⟨REF_KEY⟩ 1 none ⟨true, 0, none, none⟩ rfl rfl).1
    ⟨true, 0, some ⟨⟨REF_KEY⟩, 0⟩, none⟩
